import Mathlib

/-!
Shallow embedding of the ZIM-archive reader (`src/lib.rs`) and proofs about
its specification.

Modelling conventions:
* The memory-mapped file is a `List Nat` of bytes (each `< 256` on real
  inputs; byte reads are modelled positionally, so no masking is needed).
* Machine integers (`u8`/`u16`/`u32`/`u64`) are read little-endian into `Nat`.
* Fallible Rust paths (`try!` / `Result<_, ParsingError>`) become
  `Except ZimError`.  A Rust *panic* (a failed `assert!`/`assert_eq!`,
  an out-of-bounds slice index, `unwrap`) aborts the process instead of
  returning a `ParsingError`; it is modelled by the distinguished error
  `ZimError.abort` so that "returns an error value" and "aborts" stay
  distinguishable in theorem statements.
* `MmapView::restrict(offset, len)` returns an `io::Result` that the source
  ignores at every call site; on an out-of-range request the view therefore
  silently stays the *full* mapping.  This is modelled by
  `if off + len ≤ file.length then slice else file`.
* Rust `String`s are modelled as their UTF-8 byte lists; `String::from_utf8`
  becomes the executable validator `validUtf8`.
* The XZ decompressor is an external collaborator and is passed in as a
  function parameter `decomp`.
-/

/-- Outcomes of the fallible paths in `lib.rs`.  The first constructor models
a panic (process abort); the others model the `ParsingError` values the
library actually returns, keyed by their `msg` field. -/
inductive ZimError where
  /-- a failed `assert!`/`assert_eq!`, an out-of-bounds index, or `unwrap` --
  the process aborts instead of returning a `ParsingError` -/
  | abort
  /-- `msg = "Error reading bytestream"` (a `byteorder`/io read past the end) -/
  | readError
  /-- `msg = "Error converting to string"` (`String::from_utf8` failed) -/
  | utf8Error
  /-- `msg = "No such Mimetype"` -/
  | noSuchMimetype
  /-- `msg = "Error decoding compressed data"` (XZ decompression failed) -/
  | codecError
deriving DecidableEq, Repr

/-- `enum MimeType` from `lib.rs`.  The Rust variant `Type(String)` is spelled
`Typ` because `Type` is reserved in Lean; the payload is the mime string's
bytes. -/
inductive MimeType where
  | Redirect
  | LinkTarget
  | DeletedEntry
  | Typ (name : List Nat)
deriving DecidableEq, Repr

/-- `enum Target` from `lib.rs`. -/
inductive Target where
  /-- redirect specified as a URL index -/
  | Redirect (idx : Nat)
  /-- cluster index and blob index -/
  | Cluster (cluster blob : Nat)
deriving DecidableEq, Repr

/-- `struct DirectoryEntry` from `lib.rs`.  The Rust field `namespace` is
spelled `nspace` (Lean keyword); `url`/`title` are UTF-8 byte lists. -/
structure DirectoryEntry where
  mime_type : MimeType
  nspace : Nat
  revision : Nat
  url : List Nat
  title : List Nat
  target : Option Target
deriving DecidableEq, Repr

/-- `struct Cluster` from `lib.rs`. -/
structure Cluster where
  start_off : Nat
  end_off : Nat
  comp_type : Nat
  blob_list : List Nat
  data : List Nat
deriving DecidableEq, Repr

/-- The fields of `struct Zim` from `lib.rs` (the `File` handle and the raw
`MmapView` are represented by the byte list `file`). -/
structure ZimModel where
  version : Nat
  article_count : Nat
  cluster_count : Nat
  url_tbl_off : Nat
  title_tbl_off : Nat
  cluster_tbl_off : Nat
  mime_tbl_off : Nat
  main_page_idx : Option Nat
  layout_page_idx : Option Nat
  checksum_off : Nat
  mime_table : List (List Nat)
  url_list : List Nat
  article_list : List Nat
  cluster_list : List Nat
  file : List Nat
deriving DecidableEq, Repr

/-- `struct DirectoryIterator` from `lib.rs` (without the borrowed `zim`,
which is passed to `dirIterNext` explicitly). -/
structure DirIter where
  max_articles : Nat
  article_to_yield : Nat
deriving DecidableEq, Repr

/-- Value of a little-endian byte list (first byte least significant), as
produced by `byteorder`'s `read_uNN::<LittleEndian>`. -/
def leNum : List Nat → Nat
  | [] => 0
  | b :: rest => b + 256 * leNum rest

/-- The little-endian `u32` stored at byte offset `k` of `file`. -/
def le32at (file : List Nat) (k : Nat) : Nat := leNum ((file.drop k).take 4)

/-- The little-endian `u64` stored at byte offset `k` of `file`. -/
def le64at (file : List Nat) (k : Nat) : Nat := leNum ((file.drop k).take 8)

/-- `BufRead::read_until(0, buf)` on an in-memory cursor: returns the bytes
read (terminator included when found; reading stops at the end of the input
otherwise -- never an error) together with the unread remainder. -/
def readUntil0 : List Nat → List Nat × List Nat
  | [] => ([], [])
  | 0 :: rest => ([0], rest)
  | b :: rest =>
    let p := readUntil0 rest
    (b :: p.1, p.2)

/-- Is `c` a UTF-8 continuation byte (`0x80..=0xBF`)? -/
def utf8Cont (c : Nat) : Bool := 0x80 ≤ c && c < 0xC0

/-- Allowed second byte of a three-byte UTF-8 sequence starting with `b`
(excludes overlong forms and surrogates, as Rust's `String::from_utf8` does). -/
def utf8Snd3 (b c : Nat) : Bool :=
  if b = 0xE0 then 0xA0 ≤ c && c < 0xC0
  else if b = 0xED then 0x80 ≤ c && c < 0xA0
  else utf8Cont c

/-- Allowed second byte of a four-byte UTF-8 sequence starting with `b`
(excludes overlong forms and code points above `U+10FFFF`). -/
def utf8Snd4 (b c : Nat) : Bool :=
  if b = 0xF0 then 0x90 ≤ c && c < 0xC0
  else if b = 0xF4 then 0x80 ≤ c && c < 0x90
  else utf8Cont c

/-- UTF-8 validity of a byte list: the check performed by Rust's
`String::from_utf8`. -/
def validUtf8 : List Nat → Bool
  | [] => true
  | b :: rest =>
    if b < 0x80 then validUtf8 rest
    else if b < 0xC2 then false
    else if b < 0xE0 then
      match rest with
      | c :: r => utf8Cont c && validUtf8 r
      | [] => false
    else if b < 0xF0 then
      match rest with
      | c :: d :: r => utf8Snd3 b c && utf8Cont d && validUtf8 r
      | _ => false
    else if b < 0xF5 then
      match rest with
      | c :: d :: e :: r => utf8Snd4 b c && utf8Cont d && utf8Cont e && validUtf8 r
      | _ => false
    else false

/-- `Zim::get_mimetype` (`lib.rs:420-434`): the three reserved ids map to the
sentinel variants; any other id indexes the mime table, yielding `none`
(a recoverable condition) when out of range. -/
def getMimetype (mime_table : List (List Nat)) (id : Nat) : Option MimeType :=
  if id = 0xffff then some .Redirect
  else if id = 0xfffe then some .LinkTarget
  else if id = 0xfffd then some .DeletedEntry
  else if h : id < mime_table.length then some (.Typ (mime_table.get ⟨id, h⟩))
  else none

/-- `DirectoryEntry::new` (`lib.rs:174-217`).  The sequential cursor reads of
the source are written positionally: the cursor is at offset 0 of `s`, so the
mime id occupies bytes `[0,2)`, the padding byte is at 2, the namespace byte
at 3, the revision at `[4,8)` and the mime-dependent payload starts at 8; a
read past the end of `s` is the first failing `try!` and yields
`ZimError.readError`.  `read_until`/`truncate(size-1)` keep the bytes up to
the terminator, silently dropping the final byte read when the slice ends
before a terminator is found. -/
def dirEntryNew (mime_table : List (List Nat)) (s : List Nat) :
    Except ZimError DirectoryEntry :=
  if s.length < 2 then .error .readError
  else
    match getMimetype mime_table (leNum (s.take 2)) with
    | none => .error .noSuchMimetype
    | some mime =>
      if s.length < 8 then .error .readError
      else
        let ns := s.getD 3 0
        let rev := le32at s 4
        let tgtRest : Except ZimError (Option Target × List Nat) :=
          if mime = .Redirect then
            if s.length < 12 then .error .readError
            else .ok (some (.Redirect (le32at s 8)), s.drop 12)
          else if mime = .LinkTarget ∨ mime = .DeletedEntry then
            .ok (none, s.drop 8)
          else
            if s.length < 16 then .error .readError
            else .ok (some (.Cluster (le32at s 8) (le32at s 12)), s.drop 16)
        tgtRest.bind fun tr =>
          let u := readUntil0 tr.2
          if validUtf8 u.1.dropLast then
            let t := readUntil0 u.2
            if validUtf8 t.1.dropLast then
              .ok ⟨mime, ns, rev, u.1.dropLast, t.1.dropLast, tr.1⟩
            else .error .utf8Error
          else .error .utf8Error

/-- The blob-offset loop of `Cluster::new` (`lib.rs:130-140`): repeatedly read
a little-endian `u32` from the body, pushing each value read, and stop as soon
as a value `≥ datalen` has been pushed; a read past the end of the body is an
error. -/
def parseBlobs (datalen : Nat) : List Nat → Except ZimError (List Nat)
  | b0 :: b1 :: b2 :: b3 :: rest =>
    let v := b0 + 256 * (b1 + 256 * (b2 + 256 * b3))
    if datalen ≤ v then .ok [v]
    else (parseBlobs datalen rest).map (v :: ·)
  | _ => .error .readError

/-- End offset of cluster `idx`: the next cluster's start, or `checksum_off`
for the last cluster (`lib.rs:104-108`). -/
def clusterEndOff (cluster_list : List Nat) (checksum_off idx : Nat) : Nat :=
  if idx < cluster_list.length - 1 then cluster_list.getD (idx + 1) 0
  else checksum_off

/-- `Cluster::new` (`lib.rs:101-150`).  `cluster_list[idx]` aborts when `idx`
is out of bounds; `assert!(next > this)` aborts on a non-increasing offset
pair; the ignored `restrict` result leaves the full mapping in view when the
requested range does not fit; `slice[0]` and `slice[1..total_size]` abort when
out of range.  Tag `4` hands the remaining bytes to the decompressor `decomp`;
every other tag keeps them verbatim. -/
def clusterNew (cluster_list : List Nat) (checksum_off : Nat) (file : List Nat)
    (decomp : List Nat → Except ZimError (List Nat)) (idx : Nat) :
    Except ZimError Cluster :=
  if h : idx < cluster_list.length then
    let thisOff := cluster_list.get ⟨idx, h⟩
    let nextOff := clusterEndOff cluster_list checksum_off idx
    if thisOff < nextOff then
      let totalSize := nextOff - thisOff
      let slice :=
        if thisOff + totalSize ≤ file.length then (file.drop thisOff).take totalSize
        else file
      match slice with
      | [] => .error .abort
      | tag :: tl =>
        if totalSize ≤ (tag :: tl).length then
          let rest := ((tag :: tl).take totalSize).drop 1
          (if tag = 4 then decomp rest else .ok rest).bind fun data =>
            (parseBlobs data.length data).map fun bl =>
              ⟨thisOff, nextOff, tag, bl, data⟩
        else .error .abort
    else .error .abort
  else .error .abort

/-- The slice handed to `DirectoryEntry::new` by the iterator and by
`get_by_url_index`: `restrict(ptr, len - ptr)` with its result ignored, so an
out-of-range `ptr` leaves the full mapping in view. -/
def entrySlice (file : List Nat) (ptr : Nat) : List Nat :=
  if ptr ≤ file.length then file.drop ptr else file

/-- `DirectoryIterator::next` (`lib.rs:273-293`): yields `none` permanently
once the cursor reaches `max_articles`; otherwise decodes the entry at
`url_list[cursor]`, increments the cursor, and yields the entry on success or
`none` (with the cursor already advanced) on decode failure. -/
def dirIterNext (file : List Nat) (mime_table : List (List Nat))
    (url_list : List Nat) (it : DirIter) : Option DirectoryEntry × DirIter :=
  if it.max_articles ≤ it.article_to_yield then (none, it)
  else
    let ptr := url_list.getD it.article_to_yield 0
    let it' : DirIter := ⟨it.max_articles, it.article_to_yield + 1⟩
    match dirEntryNew mime_table (entrySlice file ptr) with
    | .ok e => (some e, it')
    | .error _ => (none, it')

/-- The mime-table loop of `Zim::new` (`lib.rs:338-349`), fused with
`read_until`: `none` means the cursor sits between strings, `some acc` that
the bytes `acc` of the current string have been read so far.  A read of at
most one byte (`size <= 1`) ends the table; the bytes of each completed read
are truncated by one (dropping the terminator, or the last byte read when the
input ends without one) and must be valid UTF-8. -/
def mimeLoop : Option (List Nat) → List Nat → Except ZimError (List (List Nat))
  | none, [] => .ok []
  | none, 0 :: _ => .ok []
  | none, b :: rest => mimeLoop (some [b]) rest
  | some acc, [] =>
    if acc.length ≤ 1 then .ok []
    else if validUtf8 acc.dropLast then .ok [acc.dropLast] else .error .utf8Error
  | some acc, 0 :: rest =>
    if validUtf8 acc then (mimeLoop none rest).map (acc :: ·)
    else .error .utf8Error
  | some acc, c :: rest => mimeLoop (some (acc ++ [c])) rest

/-- The mime table parsed from the bytes that follow the 80-byte header. -/
def parseMimeTable (l : List Nat) : Except ZimError (List (List Nat)) :=
  mimeLoop none l

/-- `count` consecutive `width`-byte little-endian integers from the front of
`l`; a read past the end yields `ZimError.readError` (the first failing
`try!(cur.read_uNN(..))`). -/
def readInts (width : Nat) : Nat → List Nat → Except ZimError (List Nat)
  | 0, _ => .ok []
  | n + 1, l =>
    if width ≤ l.length then
      (readInts width n (l.drop width)).map (leNum (l.take width) :: ·)
    else .error .readError

/-- One offset-table load of `Zim::new` (`lib.rs:351-392`): the view is
restricted to `cnt * 8` bytes at `off` -- the source multiplies by 8 for all
three tables, including the 4-byte-entry title table -- and `restrict`'s
result is ignored, so the view stays the whole mapping when that window does
not fit; then `cnt` integers of `width` bytes are read from the front of the
view. -/
def loadTable (file : List Nat) (off cnt width : Nat) :
    Except ZimError (List Nat) :=
  let view :=
    if off + cnt * 8 ≤ file.length then (file.drop off).take (cnt * 8)
    else file
  readInts width cnt view

/-- `Zim::new` (`lib.rs:301-417`).  The header is read sequentially from
offset 0, so field `k` of the 80-byte header sits at its fixed offset; the
first read crossing the end of the mapping fails with `readError`, and the
two `assert_eq!` checks (magic at the start, mime-table offset read at byte
56) abort.  The magic constant is `72173914`.  The literal the source compares
`layout_page` against is `0xffffffffff` (40 bits); as a `u32` literal it
truncates to `0xffffffff`, which is the value used here.  After the header:
the mime table, then the URL, title and cluster tables. -/
def zimNew (file : List Nat) : Except ZimError ZimModel :=
  if file.length < 4 then .error .readError
  else if le32at file 0 ≠ 72173914 then .error .abort
  else if file.length < 64 then .error .readError
  else if le64at file 56 ≠ 80 then .error .abort
  else if file.length < 80 then .error .readError
  else
    let article_count := le32at file 24
    let cluster_count := le32at file 28
    let url_ptr_pos := le64at file 32
    let title_ptr_pos := le64at file 40
    let cluster_ptr_pos := le64at file 48
    let main_page := le32at file 64
    let layout_page := le32at file 68
    (parseMimeTable (file.drop 80)).bind fun mime_table =>
      (loadTable file url_ptr_pos article_count 8).bind fun url_list =>
        (loadTable file title_ptr_pos article_count 4).bind fun article_list =>
          (loadTable file cluster_ptr_pos cluster_count 8).map fun cluster_list =>
            { version := le32at file 4
              article_count := article_count
              cluster_count := cluster_count
              url_tbl_off := url_ptr_pos
              title_tbl_off := title_ptr_pos
              cluster_tbl_off := cluster_ptr_pos
              mime_tbl_off := le64at file 56
              main_page_idx := if main_page = 0xffffffff then none else some main_page
              layout_page_idx := if layout_page = 0xffffffff then none else some layout_page
              checksum_off := le64at file 72
              mime_table := mime_table
              url_list := url_list
              article_list := article_list
              cluster_list := cluster_list
              file := file }

/-! ## Invariants of the blob-offset loop -/

/-- When the blob-offset loop of `Cluster::new` finishes without error, the
list it produced is non-empty, every element before the last is `< datalen`
(otherwise the loop would have stopped earlier), and the last element --
the retained sentinel -- is `≥ datalen`. -/
theorem parseBlobs_ok (dl : Nat) :
    ∀ (rest l : List Nat), parseBlobs dl rest = .ok l →
      l ≠ [] ∧ (∀ x ∈ l.dropLast, x < dl) ∧
        ∀ z, l.getLast? = some z → dl ≤ z := by
  have main : ∀ (n : Nat) (rest : List Nat), rest.length ≤ n →
      ∀ l, parseBlobs dl rest = .ok l →
        l ≠ [] ∧ (∀ x ∈ l.dropLast, x < dl) ∧
          ∀ z, l.getLast? = some z → dl ≤ z := by
    intro n
    induction n with
    | zero =>
      intro rest hlen l h
      match rest with
      | [] => simp [parseBlobs] at h
    | succ n ih =>
      intro rest hlen l h
      match rest with
      | [] => simp [parseBlobs] at h
      | [_] => simp [parseBlobs] at h
      | [_, _] => simp [parseBlobs] at h
      | [_, _, _] => simp [parseBlobs] at h
      | b0 :: b1 :: b2 :: b3 :: r =>
        rw [parseBlobs] at h
        split at h
        · -- the value just pushed is ≥ dl: the loop stops, l = [v]
          rename_i hge
          cases h
          refine ⟨by simp, by simp, ?_⟩
          intro z hz
          simp at hz
          omega
        · -- the value is < dl: the loop continues on r
          rename_i hlt
          cases hr : parseBlobs dl r with
          | error e => rw [hr] at h; simp [Except.map] at h
          | ok l' =>
            rw [hr] at h
            simp only [Except.map] at h
            cases h
            have hr' : r.length ≤ n := by simp at hlen; omega
            obtain ⟨hne, hpre, hlast⟩ := ih r hr' l' hr
            refine ⟨by simp, ?_, ?_⟩
            · intro x hx
              rw [List.dropLast_cons_of_ne_nil hne, List.mem_cons] at hx
              rcases hx with hx | hx
              · omega
              · exact hpre x hx
            · intro z hz
              cases l' with
              | nil => exact absurd rfl hne
              | cons a t =>
                rw [List.getLast?_cons_cons] at hz
                exact hlast z hz
  intro rest l h
  exact main rest.length rest le_rfl l h

/-- Inversion for a successful `Cluster::new`: whichever slicing branch was
taken, the blob list of the resulting cluster was produced by the blob-offset
loop over its own decompressed body. -/
theorem clusterNew_ok_parse {cl : List Nat} {co : Nat} {f : List Nat}
    {d : List Nat → Except ZimError (List Nat)} {i : Nat} {c : Cluster}
    (h : clusterNew cl co f d i = .ok c) :
    parseBlobs c.data.length c.data = .ok c.blob_list := by
  simp only [clusterNew] at h
  split at h
  · split at h
    · split at h
      · simp at h
      · split at h
        · rename_i tag tl heq hsz
          cases hd : (if tag = 4
              then d (((tag :: tl).take (clusterEndOff cl co i - cl.get ⟨i, by assumption⟩)).drop 1)
              else .ok (((tag :: tl).take (clusterEndOff cl co i - cl.get ⟨i, by assumption⟩)).drop 1)) with
          | error e => rw [hd] at h; simp [Except.bind] at h
          | ok data =>
            rw [hd] at h
            simp only [Except.bind] at h
            cases hp : parseBlobs data.length data with
            | error e => rw [hp] at h; simp [Except.map] at h
            | ok bl =>
              rw [hp] at h
              simp only [Except.map] at h
              cases h
              exact hp
        · simp at h
    · simp at h
  · simp at h

/-- Start offset of cluster `idx` (`cluster_list[idx]`), as a total function. -/
def clusterStartOff (cluster_list : List Nat) (idx : Nat) : Nat :=
  cluster_list.getD idx 0

/-- The raw byte slice `[start, end)` of cluster `idx` when it lies within the
mapped length. -/
def clusterRaw (cluster_list : List Nat) (checksum_off : Nat) (file : List Nat)
    (idx : Nat) : List Nat :=
  (file.drop (clusterStartOff cluster_list idx)).take
    (clusterEndOff cluster_list checksum_off idx - clusterStartOff cluster_list idx)

theorem clusterNew_inbounds (cl : List Nat) (co : Nat) (file : List Nat)
    (decomp : List Nat → Except ZimError (List Nat)) (idx : Nat)
    (h : idx < cl.length)
    (hlt : clusterStartOff cl idx < clusterEndOff cl co idx)
    (hb : clusterEndOff cl co idx ≤ file.length) :
    clusterNew cl co file decomp idx =
      (if (clusterRaw cl co file idx).headD 0 = 4
        then decomp (clusterRaw cl co file idx).tail
        else .ok (clusterRaw cl co file idx).tail).bind fun data =>
        (parseBlobs data.length data).map fun bl =>
          ⟨clusterStartOff cl idx, clusterEndOff cl co idx,
            (clusterRaw cl co file idx).headD 0, bl, data⟩ := by
  have hget : cl.get ⟨idx, h⟩ = clusterStartOff cl idx := by
    rw [clusterStartOff, List.getD_eq_getElem cl 0 h, List.get_eq_getElem]
  have hsz : clusterStartOff cl idx +
      (clusterEndOff cl co idx - clusterStartOff cl idx) ≤ file.length := by omega
  have hrawlen : (clusterRaw cl co file idx).length =
      clusterEndOff cl co idx - clusterStartOff cl idx := by
    simp [clusterRaw]
    omega
  obtain ⟨hd, tl, hraw⟩ : ∃ hd tl, clusterRaw cl co file idx = hd :: tl := by
    cases hcr : clusterRaw cl co file idx with
    | nil => rw [hcr] at hrawlen; simp at hrawlen; omega
    | cons a t => exact ⟨a, t, rfl⟩
  have hcr : (file.drop (clusterStartOff cl idx)).take
      (clusterEndOff cl co idx - clusterStartOff cl idx) = hd :: tl := hraw
  simp only [clusterNew]
  rw [dif_pos h, hget, if_pos hlt, if_pos hsz, hcr]
  have hlen2 : (hd :: tl).length = clusterEndOff cl co idx - clusterStartOff cl idx := by
    rw [← hraw]; exact hrawlen
  rw [hraw]
  simp only [List.headD_cons, List.tail_cons]
  rw [if_pos (le_of_eq hlen2.symm), List.take_of_length_le (le_of_eq hlen2),
    List.drop_one, List.tail_cons]

/-- C1 (counterexample): a cluster whose first byte is the unrecognized
compression tag `2` decodes *successfully* -- the body is the remaining bytes
verbatim -- instead of failing with a fatal `FormatError` as the claim
states. -/
theorem claim1_counterexample :
    clusterNew [0] 5 [2, 4, 0, 0, 0] (fun _ => .error .codecError) 0 =
      .ok ⟨0, 5, 2, [4], [4, 0, 0, 0]⟩ := rfl

/-- C1 (amended): for a cluster whose byte range is non-empty and within the
mapped length, a first byte of `4` passes the remaining bytes to the
decompression collaborator to produce the body, and *any* other first byte --
the recognized stored tags `0` and `1` and unrecognized tags alike -- keeps
the remaining bytes verbatim as the body; no error is ever raised because of
the tag value. -/
theorem claim1_amended_tag_dispatch (cl : List Nat) (co : Nat) (file : List Nat)
    (decomp : List Nat → Except ZimError (List Nat)) (idx : Nat)
    (h : idx < cl.length)
    (hlt : clusterStartOff cl idx < clusterEndOff cl co idx)
    (hb : clusterEndOff cl co idx ≤ file.length) :
    ((clusterRaw cl co file idx).headD 0 = 4 →
      clusterNew cl co file decomp idx =
        (decomp (clusterRaw cl co file idx).tail).bind fun data =>
          (parseBlobs data.length data).map fun bl =>
            ⟨clusterStartOff cl idx, clusterEndOff cl co idx, 4, bl, data⟩)
    ∧ ((clusterRaw cl co file idx).headD 0 ≠ 4 →
      clusterNew cl co file decomp idx =
        (parseBlobs (clusterRaw cl co file idx).tail.length
            (clusterRaw cl co file idx).tail).map fun bl =>
          ⟨clusterStartOff cl idx, clusterEndOff cl co idx,
            (clusterRaw cl co file idx).headD 0, bl,
            (clusterRaw cl co file idx).tail⟩) := by
  constructor
  · intro htag
    rw [clusterNew_inbounds cl co file decomp idx h hlt hb, if_pos htag, htag]
  · intro htag
    rw [clusterNew_inbounds cl co file decomp idx h hlt hb, if_neg htag]
    rfl

/-- C1 (witness): the amended theorem applied to a concrete stored cluster
(tag `3`, offsets `[1, 6)` of a 6-byte mapping). -/
theorem claim1_witness :
    clusterNew [1] 6 [9, 3, 7, 0, 0, 0] (fun _ => .error .codecError) 0 =
      (parseBlobs (clusterRaw [1] 6 [9, 3, 7, 0, 0, 0] 0).tail.length
          (clusterRaw [1] 6 [9, 3, 7, 0, 0, 0] 0).tail).map fun bl =>
        ⟨clusterStartOff [1] 0, clusterEndOff [1] 6 0,
          (clusterRaw [1] 6 [9, 3, 7, 0, 0, 0] 0).headD 0, bl,
          (clusterRaw [1] 6 [9, 3, 7, 0, 0, 0] 0).tail⟩ :=
  (claim1_amended_tag_dispatch [1] 6 [9, 3, 7, 0, 0, 0]
    (fun _ => .error .codecError) 0 (by decide) (by decide) (by decide)).2 (by decide)

/-- C10: whenever `Cluster::new` succeeds, the blob-offset list is non-empty,
every element except the last is strictly less than the body length, and the
last element is greater than or equal to the body length. -/
theorem claim10_blob_list_invariant (cluster_list : List Nat) (checksum_off : Nat)
    (file : List Nat) (decomp : List Nat → Except ZimError (List Nat)) (idx : Nat)
    (c : Cluster)
    (h : clusterNew cluster_list checksum_off file decomp idx = .ok c) :
    c.blob_list ≠ [] ∧ (∀ x ∈ c.blob_list.dropLast, x < c.data.length) ∧
      ∀ z, c.blob_list.getLast? = some z → c.data.length ≤ z :=
  parseBlobs_ok c.data.length c.data c.blob_list (clusterNew_ok_parse h)

/-- C10 (witness): a concrete stored cluster whose body is `[5,0,0,0]`; its
blob list `[5]` satisfies the invariant. -/
theorem claim10_witness :
    clusterNew [0] 5 [1, 5, 0, 0, 0] (fun _ => .error .codecError) 0 =
        .ok ⟨0, 5, 1, [5], [5, 0, 0, 0]⟩ ∧
      (([5] : List Nat) ≠ [] ∧ (∀ x ∈ ([5] : List Nat).dropLast, x < 4) ∧
        ∀ z, ([5] : List Nat).getLast? = some z → 4 ≤ z) :=
  ⟨rfl, claim10_blob_list_invariant [0] 5 [1, 5, 0, 0, 0]
    (fun _ => .error .codecError) 0 ⟨0, 5, 1, [5], [5, 0, 0, 0]⟩ rfl⟩

/-- C5 (counterexample): a stored cluster whose body is
`[8,0,0,0, 2,0,0,0, 255,255,255,255]` (length 12) decodes successfully with
blob-offset list `[8, 2, 4294967295]`, which is *not* non-decreasing and whose
last element is *not* the body length 12: the loop never checks monotonicity
and retains any sentinel `≥ 12` verbatim. -/
theorem claim5_counterexample :
    clusterNew [0] 13 [0, 8, 0, 0, 0, 2, 0, 0, 0, 255, 255, 255, 255]
        (fun _ => .error .codecError) 0 =
      .ok ⟨0, 13, 0, [8, 2, 4294967295], [8, 0, 0, 0, 2, 0, 0, 0, 255, 255, 255, 255]⟩
    ∧ ¬ (List.Chain' (· ≤ ·) [8, 2, 4294967295] ∧
        ([8, 2, 4294967295] : List Nat).getLast? = some 12) :=
  ⟨rfl, fun hcon => absurd (List.chain'_cons.mp hcon.1).1 (by omega)⟩

/-- C5 (amended): for every cluster that `get_cluster` decodes successfully,
every blob offset except the last is strictly below the length of the
decompressed body and the last offset (the retained sentinel) is at least that
length; the list need not be non-decreasing and the sentinel need not equal
the body length. -/
theorem claim5_amended_blob_bounds (cluster_list : List Nat) (checksum_off : Nat)
    (file : List Nat) (decomp : List Nat → Except ZimError (List Nat)) (idx : Nat)
    (c : Cluster)
    (h : clusterNew cluster_list checksum_off file decomp idx = .ok c) :
    (∀ x ∈ c.blob_list.dropLast, x < c.data.length) ∧
      c.data.length ≤ c.blob_list.getLastD 0 := by
  obtain ⟨hne, hpre, hlast⟩ :=
    parseBlobs_ok c.data.length c.data c.blob_list (clusterNew_ok_parse h)
  refine ⟨hpre, ?_⟩
  obtain ⟨z, hz⟩ := Option.isSome_iff_exists.mp (List.getLast?_isSome.mpr hne)
  have hdz := hlast z hz
  rw [List.getLastD_eq_getLast?, hz]
  exact hdz

/-- C5 (witness): the amended bounds at a concrete stored cluster whose body
is `[0,0,0,0, 8,0,0,0]` and whose blob list is `[0, 8]`. -/
theorem claim5_witness :
    clusterNew [0] 9 [0, 0, 0, 0, 0, 8, 0, 0, 0] (fun _ => .error .codecError) 0 =
        .ok ⟨0, 9, 0, [0, 8], [0, 0, 0, 0, 8, 0, 0, 0]⟩ ∧
      ((∀ x ∈ ([0, 8] : List Nat).dropLast, x < 8) ∧
        8 ≤ ([0, 8] : List Nat).getLastD 0) :=
  ⟨rfl, claim5_amended_blob_bounds [0] 9 [0, 0, 0, 0, 0, 8, 0, 0, 0]
    (fun _ => .error .codecError) 0 ⟨0, 9, 0, [0, 8], [0, 0, 0, 0, 8, 0, 0, 0]⟩ rfl⟩

/-- C2: whenever `Zim::new` succeeds, a `main_page` header field (bytes
`[64,68)`) equal to `0xFFFFFFFF` yields `main_page_idx = none` and any other
value is stored as `some value` without range checking; the same holds for
`layout_page` (bytes `[68,72)`) -- the source compares it against the
overflowing literal `0xffffffffff`, which truncates to `0xffffffff` as a
`u32`. -/
theorem claim2_main_layout_sentinel (file : List Nat) (z : ZimModel)
    (h : zimNew file = .ok z) :
    z.main_page_idx =
      (if le32at file 64 = 0xffffffff then none else some (le32at file 64)) ∧
    z.layout_page_idx =
      (if le32at file 68 = 0xffffffff then none else some (le32at file 68)) := by
  simp only [zimNew] at h
  split at h
  · simp at h
  · split at h
    · simp at h
    · split at h
      · simp at h
      · split at h
        · simp at h
        · split at h
          · simp at h
          · cases hm : parseMimeTable (file.drop 80) with
            | error e => rw [hm] at h; simp [Except.bind] at h
            | ok mt =>
              rw [hm] at h
              simp only [Except.bind] at h
              cases hu : loadTable file (le64at file 32) (le32at file 24) 8 with
              | error e => rw [hu] at h; simp [Except.bind] at h
              | ok ul =>
                rw [hu] at h
                simp only [Except.bind] at h
                cases ha : loadTable file (le64at file 40) (le32at file 24) 4 with
                | error e => rw [ha] at h; simp [Except.bind] at h
                | ok al =>
                  rw [ha] at h
                  simp only [Except.bind] at h
                  cases hc : loadTable file (le64at file 48) (le32at file 28) 8 with
                  | error e => rw [hc] at h; simp [Except.map] at h
                  | ok cll =>
                    rw [hc] at h
                    simp only [Except.map] at h
                    cases h
                    exact ⟨rfl, rfl⟩

/-- A minimal well-formed archive: valid 80-byte header (version 5, zero
articles and clusters, all three tables at offset 81, `main_page = 5`,
`layout_page` absent) followed by an empty mime table. -/
def zimFileA : List Nat :=
  [90, 73, 77, 4] ++ [5, 0, 0, 0] ++ List.replicate 16 0 ++ [0, 0, 0, 0]
    ++ [0, 0, 0, 0] ++ [81, 0, 0, 0, 0, 0, 0, 0] ++ [81, 0, 0, 0, 0, 0, 0, 0]
    ++ [81, 0, 0, 0, 0, 0, 0, 0] ++ [80, 0, 0, 0, 0, 0, 0, 0] ++ [5, 0, 0, 0]
    ++ [255, 255, 255, 255] ++ [81, 0, 0, 0, 0, 0, 0, 0] ++ [0]

/-- The parse of `zimFileA`. -/
def zimA : ZimModel :=
  ⟨5, 0, 0, 81, 81, 81, 80, some 5, none, 81, [], [], [], [], zimFileA⟩

/-- C2 (witness): `zimFileA` parses successfully with `main_page_idx = some 5`
and `layout_page_idx = none`, as the sentinel rule dictates. -/
theorem claim2_witness :
    zimNew zimFileA = .ok zimA ∧
      zimA.main_page_idx =
        (if le32at zimFileA 64 = 0xffffffff then none else some (le32at zimFileA 64)) ∧
      zimA.layout_page_idx =
        (if le32at zimFileA 68 = 0xffffffff then none else some (le32at zimFileA 68)) :=
  ⟨rfl, claim2_main_layout_sentinel zimFileA zimA rfl⟩

/-- C4 (counterexample): opening a 4-byte file whose magic `leNum [1,2,3,4]`
differs from `72173914` produces `ZimError.abort` -- the model of the failed
`assert_eq!(magic, 72173914)`, i.e. a process-aborting panic -- and not a
returned `FormatError`-style `ParsingError` value, refuting the claim that
`Zim::new` "fails by returning a FormatError value, not by aborting". -/
theorem claim4_counterexample : zimNew [1, 2, 3, 4] = .error .abort := rfl

/-- C4 (amended): `Zim::new` *aborts via a failed assertion (panic)* -- it
does not return an error value -- whenever the u32 magic at offset 0 differs
from `72173914`, and likewise whenever the magic matches but the mime-table
offset field at bytes `[56,64)` differs from 80.  In the bad-magic case the
result is `abort` for every file with those first four bytes, so no table
loads are performed. -/
theorem claim4_amended_assert_abort :
    (∀ file : List Nat, 4 ≤ file.length → le32at file 0 ≠ 72173914 →
      zimNew file = .error .abort)
    ∧ ∀ file : List Nat, 64 ≤ file.length → le32at file 0 = 72173914 →
        le64at file 56 ≠ 80 → zimNew file = .error .abort := by
  constructor
  · intro file h4 hm
    simp only [zimNew]
    rw [if_neg (by omega), if_pos hm]
  · intro file h64 hm hmt
    simp only [zimNew]
    rw [if_neg (by omega), if_neg (not_not_intro hm), if_neg (by omega),
      if_pos hmt]

/-- C4 (witness): the amended theorem at two concrete files: a 4-byte file of
nines (bad magic), and a 64-byte file with the correct magic whose mime-table
offset field reads `506381209866536711`, not 80. -/
theorem claim4_witness :
    zimNew [9, 9, 9, 9] = .error .abort ∧
      zimNew ([90, 73, 77, 4] ++ List.replicate 60 7) = .error .abort :=
  ⟨claim4_amended_assert_abort.1 [9, 9, 9, 9] (by decide) (by decide),
    claim4_amended_assert_abort.2 ([90, 73, 77, 4] ++ List.replicate 60 7)
      (by decide) (by decide) (by decide)⟩

/-- An archive with one article and zero clusters, mapped length 93: valid
header, empty mime table at 80, URL table (one 8-byte zero entry) at 81, and
the title-sort table placed at offset `t`; the last four bytes of the file
(offsets `[89,93)`) are `[9,9,9,9]`. -/
def zimFileTitle (t : Nat) : List Nat :=
  [90, 73, 77, 4] ++ [1, 0, 0, 0] ++ List.replicate 16 0 ++ [1, 0, 0, 0]
    ++ [0, 0, 0, 0] ++ [81, 0, 0, 0, 0, 0, 0, 0] ++ [t, 0, 0, 0, 0, 0, 0, 0]
    ++ [93, 0, 0, 0, 0, 0, 0, 0] ++ [80, 0, 0, 0, 0, 0, 0, 0]
    ++ [255, 255, 255, 255] ++ [255, 255, 255, 255] ++ [93, 0, 0, 0, 0, 0, 0, 0]
    ++ [0] ++ List.replicate 8 0 ++ [9, 9, 9, 9]

/-- C7: the title-sort table load deviates from the claim on both counts.
With `title_table_off = 89` the `article_count * 4`-byte slice `[89,93)` fits
in the 93-byte mapping, yet the loaded table is `[72173914]` -- the u32 at
offset 0, the magic -- not the u32 `151587081` actually stored at offset 89:
the code restricts the view to `article_count * 8` bytes (a copy-paste of the
8-byte-entry tables), the `restrict` call fails for `[89,97)`, its `Result`
is ignored, and the ints are read from the start of the full mapping.
With `title_table_off = 91` the 4-byte slice `[91,95)` exceeds the mapped
length, so the claim demands a `TruncatedFileError`, yet the load (and the
whole `Zim::new`) still succeeds the same way. -/
theorem claim7_title_table_bug :
    ((zimNew (zimFileTitle 89)).map ZimModel.article_list = .ok [72173914]
      ∧ le32at (zimFileTitle 89) 89 = 151587081
      ∧ (zimFileTitle 89).length = 93)
    ∧ (zimNew (zimFileTitle 91)).map ZimModel.article_list = .ok [72173914] :=
  ⟨⟨rfl, rfl, rfl⟩, rfl⟩

/-- C9: `get_mimetype` maps the reserved ids `0xFFFF`/`0xFFFE`/`0xFFFD` to
`Redirect`/`LinkTarget`/`DeletedEntry` regardless of the table's contents,
returns the table entry for any other id inside the table's range, and
returns no value (a non-fatal condition) for an id outside it. -/
theorem claim9_get_mimetype (mime_table : List (List Nat)) (id : Nat)
    (hid : id < 65536) :
    getMimetype mime_table id =
      if id = 0xffff then some .Redirect
      else if id = 0xfffe then some .LinkTarget
      else if id = 0xfffd then some .DeletedEntry
      else if id < mime_table.length then some (.Typ (mime_table.getD id []))
      else none := by
  by_cases h1 : id = 0xffff
  · simp [getMimetype, h1]
  · by_cases h2 : id = 0xfffe
    · simp [getMimetype, h1, h2]
    · by_cases h3 : id = 0xfffd
      · simp [getMimetype, h1, h2, h3]
      · by_cases h4 : id < mime_table.length
        · simp [getMimetype, h1, h2, h3, h4,
            List.getD_eq_getElem mime_table [] h4, List.get_eq_getElem]
        · simp [getMimetype, h1, h2, h3, h4]

/-- C9 (witness): the dispatch at the ordinary id `1` of a two-entry table
(and `1 < 0x10000`). -/
theorem claim9_witness :
    getMimetype [[104], [105]] 1 =
      if (1 : Nat) = 0xffff then some .Redirect
      else if (1 : Nat) = 0xfffe then some .LinkTarget
      else if (1 : Nat) = 0xfffd then some .DeletedEntry
      else if 1 < [[104], [105]].length then some (.Typ ([[104], [105]].getD 1 []))
      else none :=
  claim9_get_mimetype [[104], [105]] 1 (by decide)

/-- C3 (amended): once the cursor has reached `article_count` every further
`next()` yields end-of-sequence with the state unchanged (so the exhausted
iterator is permanently terminal); but a decode *failure* only makes the
current call yield `none` while still advancing the cursor past the bad
entry, so a subsequent call decodes the next entry and can yield it -- the
iterator does not stop permanently on a decode failure. -/
theorem claim3_amended_next_semantics :
    (∀ (file : List Nat) (tbl : List (List Nat)) (ul : List Nat) (it : DirIter),
      it.max_articles ≤ it.article_to_yield →
        dirIterNext file tbl ul it = (none, it))
    ∧ ∀ (file : List Nat) (tbl : List (List Nat)) (ul : List Nat) (it : DirIter),
        it.article_to_yield < it.max_articles →
        (∀ e, dirEntryNew tbl (entrySlice file (ul.getD it.article_to_yield 0)) ≠ .ok e) →
        dirIterNext file tbl ul it = (none, ⟨it.max_articles, it.article_to_yield + 1⟩) := by
  constructor
  · intro file tbl ul it hge
    simp only [dirIterNext]
    rw [if_pos hge]
  · intro file tbl ul it hlt hfail
    simp only [dirIterNext]
    rw [if_neg (by omega)]
    cases hde : dirEntryNew tbl (entrySlice file (ul.getD it.article_to_yield 0)) with
    | ok e => exact absurd hde (hfail e)
    | error e => rfl

/-- A 28-byte mapping holding two directory entries: the entry at offset 0
has mime id 7 (undecodable against an empty mime table) and the entry at
offset 12 is a well-formed redirect. -/
def iterFile : List Nat :=
  [7, 0] ++ List.replicate 10 0
    ++ [255, 255, 0, 65, 1, 0, 0, 0, 9, 0, 0, 0, 117, 0, 116, 0]

/-- C3 (counterexample): with `url_list = [0, 12]` and `article_count = 2`,
the first `next()` hits a decode failure and yields end-of-sequence, yet the
*subsequent* call yields the entry at index 1: after a decode failure the
iterator does not stop permanently, contradicting the claim. -/
theorem claim3_counterexample :
    (dirIterNext iterFile [] [0, 12] ⟨2, 0⟩).1 = none ∧
      dirIterNext iterFile [] [0, 12] (dirIterNext iterFile [] [0, 12] ⟨2, 0⟩).2 =
        (some ⟨.Redirect, 65, 1, [117], [116], some (.Redirect 9)⟩, ⟨2, 2⟩) :=
  ⟨rfl, rfl⟩

/-- C3 (witness): the amended semantics at concrete states: an exhausted
iterator (`cursor = max = 1`) stays put, and the failing first entry of
`iterFile` advances the cursor from 0 to 1 while yielding `none`. -/
theorem claim3_witness :
    dirIterNext iterFile [] [0, 12] ⟨1, 1⟩ = (none, ⟨1, 1⟩) ∧
      dirIterNext iterFile [] [0, 12] ⟨2, 0⟩ = (none, ⟨2, 1⟩) :=
  ⟨claim3_amended_next_semantics.1 iterFile [] [0, 12] ⟨1, 1⟩ (by decide),
    claim3_amended_next_semantics.2 iterFile [] [0, 12] ⟨2, 0⟩ (by decide)
      (fun e hc => by
        rw [show dirEntryNew [] (entrySlice iterFile (List.getD [0, 12] 0 0)) =
          .error .noSuchMimetype from rfl] at hc
        exact Except.noConfusion hc)⟩

/-- C8: for every successfully decoded directory entry, a `Redirect` mime
type consumed exactly one further u32 (the value at bytes `[8,12)`) producing
`Target::Redirect`; `LinkTarget`/`DeletedEntry` consumed no target fields and
left `target = None`; every concrete `Type` consumed exactly two u32 values
(bytes `[8,12)` and `[12,16)`) producing `Target::Cluster(cluster, blob)` --
so `target` is absent exactly when the mime type is `LinkTarget` or
`DeletedEntry`. -/
theorem claim8_target_shape (mime_table : List (List Nat)) (s : List Nat)
    (e : DirectoryEntry) (h : dirEntryNew mime_table s = .ok e) :
    ((e.target = none) ↔ (e.mime_type = .LinkTarget ∨ e.mime_type = .DeletedEntry))
    ∧ (e.mime_type = .Redirect → e.target = some (.Redirect (le32at s 8)))
    ∧ ∀ nm, e.mime_type = .Typ nm →
        e.target = some (.Cluster (le32at s 8) (le32at s 12)) := by
  simp only [dirEntryNew] at h
  split at h
  · simp at h
  · cases hmt : getMimetype mime_table (leNum (s.take 2)) with
    | none => rw [hmt] at h; simp at h
    | some mime =>
      rw [hmt] at h
      simp only at h
      split at h
      · simp at h
      · by_cases hR : mime = .Redirect
        · rw [if_pos hR] at h
          split at h
          · simp [Except.bind] at h
          · simp only [Except.bind] at h
            split at h
            · split at h
              · cases h
                subst hR
                exact ⟨⟨fun hc => Option.noConfusion hc,
                    fun hc => by rcases hc with hc | hc <;> exact MimeType.noConfusion hc⟩,
                  fun _ => rfl, fun nm hnm => MimeType.noConfusion hnm⟩
              · simp at h
            · simp at h
        · by_cases hL : mime = .LinkTarget ∨ mime = .DeletedEntry
          · rw [if_neg hR, if_pos hL] at h
            simp only [Except.bind] at h
            split at h
            · split at h
              · cases h
                exact ⟨⟨fun _ => hL, fun _ => rfl⟩,
                  fun hc => absurd hc hR,
                  fun nm hnm => absurd (hnm : mime = .Typ nm)
                    (by rcases hL with rfl | rfl <;> exact fun hx => MimeType.noConfusion hx)⟩
              · simp at h
            · simp at h
          · rw [if_neg hR, if_neg hL] at h
            split at h
            · simp [Except.bind] at h
            · simp only [Except.bind] at h
              split at h
              · split at h
                · cases h
                  exact ⟨⟨fun hc => Option.noConfusion hc, fun hc => absurd hc hL⟩,
                    fun hc => absurd hc hR, fun nm hnm => rfl⟩
                · simp at h
              · simp at h

/-- C8 (witness): a concrete entry with ordinary mime id 0 over the one-entry
table `[[116]]`: two u32 values are consumed, producing
`Target::Cluster(3, 4)`. -/
theorem claim8_witness :
    dirEntryNew [[116]] [0, 0, 0, 67, 2, 0, 0, 0, 3, 0, 0, 0, 4, 0, 0, 0, 97, 0, 98, 0] =
        .ok ⟨.Typ [116], 67, 2, [97], [98], some (.Cluster 3 4)⟩ ∧
      ((some (Target.Cluster 3 4) = none ↔
          (MimeType.Typ [116] = .LinkTarget ∨ MimeType.Typ [116] = .DeletedEntry))
        ∧ (MimeType.Typ [116] = .Redirect →
            some (Target.Cluster 3 4) = some (.Redirect
              (le32at [0, 0, 0, 67, 2, 0, 0, 0, 3, 0, 0, 0, 4, 0, 0, 0, 97, 0, 98, 0] 8)))
        ∧ ∀ nm, MimeType.Typ [116] = .Typ nm →
            some (Target.Cluster 3 4) = some (.Cluster
              (le32at [0, 0, 0, 67, 2, 0, 0, 0, 3, 0, 0, 0, 4, 0, 0, 0, 97, 0, 98, 0] 8)
              (le32at [0, 0, 0, 67, 2, 0, 0, 0, 3, 0, 0, 0, 4, 0, 0, 0, 97, 0, 98, 0] 12))) :=
  ⟨rfl, claim8_target_shape [[116]]
    [0, 0, 0, 67, 2, 0, 0, 0, 3, 0, 0, 0, 4, 0, 0, 0, 97, 0, 98, 0]
    ⟨.Typ [116], 67, 2, [97], [98], some (.Cluster 3 4)⟩ rfl⟩

/-- `read_until` stops at the first zero byte: on `a ++ 0 :: b` with no zero
in `a` it reads `a ++ [0]` and leaves `b`. -/
theorem readUntil0_append (a b : List Nat) (ha : 0 ∉ a) :
    readUntil0 (a ++ 0 :: b) = (a ++ [0], b) := by
  induction a with
  | nil => rfl
  | cons x t ih =>
    have hx : x ≠ 0 := fun hx => ha (by rw [hx]; exact List.mem_cons_self 0 t)
    have ht : 0 ∉ t := fun hmem => ha (List.mem_cons_of_mem x hmem)
    cases x with
    | zero => exact absurd rfl hx
    | succ n => simp [readUntil0, ih ht]

/-- `read_until` on input without a zero byte consumes everything and reports
no error: this is why a missing terminator cannot produce a
`TruncatedFileError`. -/
theorem readUntil0_noZero (a : List Nat) (ha : 0 ∉ a) :
    readUntil0 a = (a, []) := by
  induction a with
  | nil => rfl
  | cons x t ih =>
    have hx : x ≠ 0 := fun hx => ha (by rw [hx]; exact List.mem_cons_self 0 t)
    have ht : 0 ∉ t := fun hmem => ha (List.mem_cons_of_mem x hmem)
    cases x with
    | zero => exact absurd rfl hx
    | succ n => simp [readUntil0, ih ht]

/-- C6 (counterexample): a redirect entry whose title string `[120, 121]` is
*not* terminated before the slice ends decodes *successfully* -- `read_until`
reports the bytes read without error and `truncate(size - 1)` silently drops
the final byte, yielding title `[120]` -- instead of failing with a
`TruncatedFileError` as the claim states. -/
theorem claim6_counterexample :
    dirEntryNew [] [255, 255, 0, 65, 1, 0, 0, 0, 7, 0, 0, 0, 97, 98, 0, 120, 121] =
      .ok ⟨.Redirect, 65, 1, [97, 98], [120], some (.Redirect 7)⟩ := rfl

/-- C6 (amended): `DirectoryEntry` decoding fails with an `EncodingError`
when the URL or title string is not valid UTF-8, but a missing null
terminator does *not* produce a `TruncatedFileError`: `read_until` returns
the bytes available at the end of the slice without error, and the decoder
consumes them with the final byte silently dropped.  Stated for a redirect
entry whose URL is terminated and whose (non-empty) title runs to the end of
the slice unterminated: decoding succeeds exactly when both strings pass
UTF-8 validation, and otherwise fails with `utf8Error` -- never with a
truncation error. -/
theorem claim6_amended_string_decoding (mime_table : List (List Nat))
    (url title : List Nat) (hu : 0 ∉ url) (ht : 0 ∉ title) (hne : title ≠ []) :
    dirEntryNew mime_table
        (255 :: 255 :: 0 :: 65 :: 1 :: 0 :: 0 :: 0 :: 7 :: 0 :: 0 :: 0 ::
          (url ++ 0 :: title)) =
      if validUtf8 url then
        if validUtf8 title.dropLast then
          .ok ⟨.Redirect, 65, 1, url, title.dropLast, some (.Redirect 7)⟩
        else .error .utf8Error
      else .error .utf8Error := by
  have hlen : (255 :: 255 :: 0 :: 65 :: 1 :: 0 :: 0 :: 0 :: 7 :: 0 :: 0 :: 0 ::
      (url ++ 0 :: title)).length = url.length + title.length + 13 := by
    simp [List.length_append] <;> omega
  have h2 : ¬ (255 :: 255 :: 0 :: 65 :: 1 :: 0 :: 0 :: 0 :: 7 :: 0 :: 0 :: 0 ::
      (url ++ 0 :: title)).length < 2 := by omega
  have h8 : ¬ (255 :: 255 :: 0 :: 65 :: 1 :: 0 :: 0 :: 0 :: 7 :: 0 :: 0 :: 0 ::
      (url ++ 0 :: title)).length < 8 := by omega
  have h12 : ¬ (255 :: 255 :: 0 :: 65 :: 1 :: 0 :: 0 :: 0 :: 7 :: 0 :: 0 :: 0 ::
      (url ++ 0 :: title)).length < 12 := by omega
  have htake2 : (255 :: 255 :: 0 :: 65 :: 1 :: 0 :: 0 :: 0 :: 7 :: 0 :: 0 :: 0 ::
      (url ++ 0 :: title)).take 2 = [255, 255] := rfl
  have hmime : getMimetype mime_table (leNum ((255 :: 255 :: 0 :: 65 :: 1 :: 0 :: 0 :: 0 ::
      7 :: 0 :: 0 :: 0 :: (url ++ 0 :: title)).take 2)) = some MimeType.Redirect := by
    rw [htake2]; rfl
  have htake4 : ((255 :: 255 :: 0 :: 65 :: 1 :: 0 :: 0 :: 0 :: 7 :: 0 :: 0 :: 0 ::
      (url ++ 0 :: title)).drop 4).take 4 = [1, 0, 0, 0] := rfl
  have hrev : le32at (255 :: 255 :: 0 :: 65 :: 1 :: 0 :: 0 :: 0 :: 7 :: 0 :: 0 :: 0 ::
      (url ++ 0 :: title)) 4 = 1 := by
    rw [le32at, htake4]; rfl
  have htake8 : ((255 :: 255 :: 0 :: 65 :: 1 :: 0 :: 0 :: 0 :: 7 :: 0 :: 0 :: 0 ::
      (url ++ 0 :: title)).drop 8).take 4 = [7, 0, 0, 0] := rfl
  have htgt : le32at (255 :: 255 :: 0 :: 65 :: 1 :: 0 :: 0 :: 0 :: 7 :: 0 :: 0 :: 0 ::
      (url ++ 0 :: title)) 8 = 7 := by
    rw [le32at, htake8]; rfl
  have hdrop12 : (255 :: 255 :: 0 :: 65 :: 1 :: 0 :: 0 :: 0 :: 7 :: 0 :: 0 :: 0 ::
      (url ++ 0 :: title)).drop 12 = url ++ 0 :: title := rfl
  have hns : (255 :: 255 :: 0 :: 65 :: 1 :: 0 :: 0 :: 0 :: 7 :: 0 :: 0 :: 0 ::
      (url ++ 0 :: title)).getD 3 0 = 65 := rfl
  simp only [dirEntryNew, Except.bind, h2, h8, h12, hmime, hrev, htgt, hdrop12, hns,
    readUntil0_append url title hu, readUntil0_noZero title ht,
    List.dropLast_concat, eq_self_iff_true, if_true, if_false, ite_true, ite_false]

/-- C6 (witness): the amended statement at the concrete strings
`url = [97]` (valid UTF-8, terminated) and `title = [120, 255]` (unterminated;
its retained prefix `[120]` is valid UTF-8), where decoding succeeds. -/
theorem claim6_witness :
    dirEntryNew [] (255 :: 255 :: 0 :: 65 :: 1 :: 0 :: 0 :: 0 :: 7 :: 0 :: 0 :: 0 ::
        ([97] ++ 0 :: [120, 255])) =
      if validUtf8 [97] then
        if validUtf8 ([120, 255] : List Nat).dropLast then
          .ok ⟨.Redirect, 65, 1, [97], ([120, 255] : List Nat).dropLast,
            some (.Redirect 7)⟩
        else .error .utf8Error
      else .error .utf8Error :=
  claim6_amended_string_decoding [] [97] [120, 255] (by decide) (by decide) (by decide)
